import Mathlib

/-!
Verification of the Focus_Lamp session orchestration core.

The Python source is shallowly embedded: the schedule arithmetic
(`FocusService.calculate_light_schedule`) is modelled over `ℚ` (the source
computes with Python floats on small decimal constants; we use the exact
decimal values), the phase-execution loop (`FocusService.run_focus_session`
in `src/lelamp/test/main.py`) is modelled as a discrete loop whose unit of
time is one 100 ms polling tick, the monitoring loop
(`focus_monitoring_loop`) as a discrete loop whose unit is one 10 s tick,
the rating extraction (`get_latest_concentration_rating`) as a character
scanner equivalent to `re.findall` for the fixed pattern, and the homing
stability loop (`MotorsService._go_home`) as a step function over the
stream of position reads.
-/

/-! ## Schedule arithmetic (`calculate_light_schedule`)

Source: `src/lelamp/focus/focus_service.py` lines 76-142, duplicated at
`src/lelamp/test/main.py` lines 124-190.  Parameters are Python ints; the
intermediate values are floats, modelled here as exact rationals. -/

/-- Source line 94 / 142: `t_before_17 = max(0, min(c + t, 1020) - c)`
with `c = start_hour * 60 + start_minute` and `t = total_duration_min`. -/
def focusTBefore17 (start_hour start_minute total_duration_min : ℤ) : ℚ :=
  let c : ℚ := (start_hour : ℚ) * 60 + (start_minute : ℚ)
  let t : ℚ := (total_duration_min : ℚ)
  max 0 (min (c + t) 1020 - c)

/-- Source lines 96-110: the wake-up minutes before the final clamp.
Branches on `start_hour >= 17`, `12 <= start_hour < 17` (with the fatigue
cases `f == 5`, `f == 4`, else 0) and `start_hour < 12` (the
`factor1 * factor2` formula). -/
def focusTWakeupRaw (start_hour start_minute total_duration_min fatigue_level : ℤ) : ℚ :=
  let c : ℚ := (start_hour : ℚ) * 60 + (start_minute : ℚ)
  let t : ℚ := (total_duration_min : ℚ)
  let f : ℚ := (fatigue_level : ℚ)
  if 17 ≤ start_hour then 0
  else if 12 ≤ start_hour then
    if fatigue_level = 5 then 0.20 * t
    else if fatigue_level = 4 then 0.15 * t
    else 0
  else
    t * ((0.7 + 0.1 * f) * (30 - 0.0833 * max (c - 480) 0)) / 100

/-- Source line 113: `P_moderate = 0.75 * M + 0.25 * (t_before_17 / t if t > 0 else 0)`. -/
def focusPModerate (start_hour start_minute total_duration_min focus_mode_m : ℤ) : ℚ :=
  let t : ℚ := (total_duration_min : ℚ)
  0.75 * (focus_mode_m : ℚ) +
    0.25 * (if 0 < total_duration_min then
              focusTBefore17 start_hour start_minute total_duration_min / t
            else 0)

/-- Source line 114: `T_moderate = t * max(0, P_moderate)` before the final clamp. -/
def focusTModerateRaw (start_hour start_minute total_duration_min focus_mode_m : ℤ) : ℚ :=
  (total_duration_min : ℚ) *
    max 0 (focusPModerate start_hour start_minute total_duration_min focus_mode_m)

/-- Source line 117: `T_low = t - T_wakeup - T_moderate` before the final clamp. -/
def focusTLowRaw (start_hour start_minute total_duration_min fatigue_level focus_mode_m : ℤ) : ℚ :=
  (total_duration_min : ℚ)
    - focusTWakeupRaw start_hour start_minute total_duration_min fatigue_level
    - focusTModerateRaw start_hour start_minute total_duration_min focus_mode_m

/-- Source lines 119-142: clamp the three durations to `≥ 0`
(`T_x = max(0, T_x)`) and emit the phase list, skipping phases whose
duration is not `> 0`.  Each phase is `(duration_seconds, cct_k,
illuminance_lx)`; the moderate phase uses `(3000 K, 750 lx)` when
`t > 90` minutes and `(4500 K, 450 lx)` otherwise. -/
def calculate_light_schedule
    (start_hour start_minute total_duration_min fatigue_level focus_mode_m : ℤ) :
    List (ℚ × ℤ × ℤ) :=
  let T_wakeup : ℚ :=
    max 0 (focusTWakeupRaw start_hour start_minute total_duration_min fatigue_level)
  let T_moderate : ℚ :=
    max 0 (focusTModerateRaw start_hour start_minute total_duration_min focus_mode_m)
  let T_low : ℚ :=
    max 0 (focusTLowRaw start_hour start_minute total_duration_min fatigue_level focus_mode_m)
  (if 0 < T_wakeup then [(T_wakeup * 60, 5800, 750)] else []) ++
  (if 0 < T_moderate then
     (if 90 < total_duration_min then [(T_moderate * 60, 3000, 750)]
      else [(T_moderate * 60, 4500, 450)])
   else []) ++
  (if 0 < T_low then [(T_low * 60, 3000, 250)] else [])

/-! Spec-side definitions for the refinement claim C3: these follow the
closed-form algorithm in spec section 4.1 (steps 1-6), each result clamped
to `≥ 0` as step 6 prescribes.  They are to be compared with the
source-side definitions above. -/

/-- Spec section 4.1 steps 1-3 followed by the step-6 clamp: the wake-up
minutes `T_wakeup`, clamped to `≥ 0`. -/
def specTWakeup (start_hour start_minute total_duration_min fatigue_level : ℤ) : ℚ :=
  let c : ℚ := (start_hour : ℚ) * 60 + (start_minute : ℚ)
  let t : ℚ := (total_duration_min : ℚ)
  max 0
    (if 17 ≤ start_hour then 0
     else if 12 ≤ start_hour then
       if fatigue_level = 5 then 0.20 * t
       else if fatigue_level = 4 then 0.15 * t
       else 0
     else
       t * (((0.7 + 0.1 * (fatigue_level : ℚ)) * (30 - 0.0833 * max (c - 480) 0)) / 100))

/-- Spec section 4.1 step 4 followed by the step-6 clamp: the moderate
minutes `T_moderate = t * max(0, 0.75*focus_mode + 0.25*(t_before_17/t if
t>0 else 0))`, clamped to `≥ 0`. -/
def specTModerate (start_hour start_minute total_duration_min focus_mode_m : ℤ) : ℚ :=
  let c : ℚ := (start_hour : ℚ) * 60 + (start_minute : ℚ)
  let t : ℚ := (total_duration_min : ℚ)
  let tBefore17 : ℚ := max 0 (min (c + t) 1020 - c)
  max 0
    (t * max 0 (0.75 * (focus_mode_m : ℚ) +
                0.25 * (if 0 < total_duration_min then tBefore17 / t else 0)))

/-- Spec section 4.1 step 5 followed by the step-6 clamp: the low minutes
`T_low = t - T_wakeup - T_moderate` (computed from the unclamped values,
as step 6 demands), clamped to `≥ 0`. -/
def specTLow (start_hour start_minute total_duration_min fatigue_level focus_mode_m : ℤ) : ℚ :=
  let c : ℚ := (start_hour : ℚ) * 60 + (start_minute : ℚ)
  let t : ℚ := (total_duration_min : ℚ)
  let tBefore17 : ℚ := max 0 (min (c + t) 1020 - c)
  let tWakeup : ℚ :=
    if 17 ≤ start_hour then 0
    else if 12 ≤ start_hour then
      if fatigue_level = 5 then 0.20 * t
      else if fatigue_level = 4 then 0.15 * t
      else 0
    else
      t * (((0.7 + 0.1 * (fatigue_level : ℚ)) * (30 - 0.0833 * max (c - 480) 0)) / 100)
  let tModerate : ℚ :=
    t * max 0 (0.75 * (focus_mode_m : ℚ) +
               0.25 * (if 0 < total_duration_min then tBefore17 / t else 0))
  max 0 (t - tWakeup - tModerate)

/-! ## Phase execution loop (`FocusService.run_focus_session`)

Source: `src/lelamp/test/main.py` lines 192-244 (pause/resume/stop at
lines 246-260).  Time is discretised into 100 ms polling ticks, the
granularity at which the loop observes its events: the inner wait is

    start_time = time.time()
    while time.time() - start_time < duration_sec:
        if self._stop_event.is_set(): ... break
        self._running_event.wait(timeout=0.1)

`Event.wait(timeout=0.1)` returns within one tick whether the event is set
(session running, returns immediately) or cleared (paused, returns when
the 0.1 s timeout elapses), so every loop iteration advances wall-clock
time by at most one tick and the loop condition compares *wall-clock*
elapsed time to the duration.  We model one iteration as exactly one tick.
The `stop` and `running` arguments are the states of `_stop_event` and
`_running_event` at each tick; the exit logic of the source never reads
`_running_event`'s value (the result of `wait` is discarded), which the
model reflects. -/

/-- One phase's inner wait loop, at tick `τ` with `remaining` ticks of the
phase's duration left.  Returns the exit tick and whether the wait was
aborted by the stop event (source lines 227-232). -/
def phaseWait (stop running : ℕ → Bool) (τ : ℕ) : ℕ → ℕ × Bool
  | 0 => (τ, false)
  | remaining + 1 =>
    if stop τ then (τ, true)
    else phaseWait stop running (τ + 1) remaining

/-- Result of running the phase loop: exit tick, the
`session_completed_normally` flag, and how many phases passed the
top-of-loop stop check (and hence dispatched their light rendering). -/
structure PhaseRunOut where
  finish : ℕ
  completedNormally : Bool
  phasesStarted : ℕ
deriving DecidableEq

/-- The `for` loop of `run_focus_session` (source lines 206-236): for each
phase duration (in ticks), check the stop event, render the phase's
lighting, run the inner wait, and re-check the stop event before moving to
the next phase. -/
def runPhases (stop running : ℕ → Bool) : ℕ → List ℕ → PhaseRunOut
  | τ, [] => ⟨τ, true, 0⟩
  | τ, d :: rest =>
    if stop τ then ⟨τ, false, 0⟩
    else
      let w := phaseWait stop running τ d
      if w.2 then ⟨w.1, false, 1⟩
      else if stop w.1 then ⟨w.1, false, 1⟩
      else
        let out := runPhases stop running w.1 rest
        ⟨out.finish, out.completedNormally, out.phasesStarted + 1⟩

/-- Result of a whole session: the phase-loop outcome plus the number of
invocations of the registered completion callback. -/
structure SessionResult where
  finish : ℕ
  completedNormally : Bool
  phasesStarted : ℕ
  callbackCalls : ℕ
deriving DecidableEq

/-- `run_focus_session` (source lines 192-244): run the phase loop from
tick `τ0`; if it completed normally, invoke the session-complete callback
once (source lines 238-242). -/
def run_focus_session (stop running : ℕ → Bool) (τ0 : ℕ) (schedule : List ℕ) :
    SessionResult :=
  let out := runPhases stop running τ0 schedule
  ⟨out.finish, out.completedNormally, out.phasesStarted,
    if out.completedNormally then 1 else 0⟩

/-- A stop event that is never set. -/
def stopNever : ℕ → Bool := fun _ => false

/-- A stop event set from tick 2 onwards (as `stop()` sets `_stop_event`
once and nothing clears it during a session). -/
def stopFromTick2 : ℕ → Bool := fun τ => decide (2 ≤ τ)

/-- A `_running_event` trace for a session that is paused during ticks 1
and 2 and running otherwise: `pause()` at tick 1, `resume()` at tick 3. -/
def pausedOneToThree : ℕ → Bool := fun τ => decide (τ < 1 ∨ 3 ≤ τ)

/-! ## Rating extraction and the rating-to-action table

Source: `src/lelamp/test/main.py` lines 577-629.
`get_latest_concentration_rating` reads `detection_log.txt` and runs
`re.findall` with the pattern consisting of the eight-character marker
(six CJK characters, an ASCII colon and a space) followed by a group of
one or more digits, then takes the last match.  We implement the scan as
a character automaton: because the marker's first character occurs
nowhere else in the marker, restarting the match on a mismatch at the
offending character is equivalent to the regex engine's retry from the
next start position. -/

/-- The characters of the rating marker in the regex at source line 588. -/
def ratingMarker : List Char := ['专', '注', '状', '态', '评', '级', ':', ' ']

/-- Advance the marker-match counter by one character: extend the current
match, restart a match at this character if it is the marker's first
character, or reset. -/
def markerStep (k : ℕ) (c : Char) : ℕ :=
  if c = ratingMarker.getD k ' ' then k + 1
  else if c = '专' then 1
  else 0

/-- Numeric value of a decimal digit character. -/
def digitVal (c : Char) : ℕ := c.toNat - 48

/-- Value of a digit string, as Python's `int()` computes it on the
regex group. -/
def digitsToNat (ds : List Char) : ℕ :=
  ds.foldl (fun a c => a * 10 + digitVal c) 0

/-- Scanner state: matching the marker (with `k` characters matched;
`k = 8` means the full marker has been matched and the first digit of the
group is awaited) or accumulating the digit group. -/
inductive ScanState where
  | matchingMarker (k : ℕ)
  | readingDigits (acc : ℕ)
deriving DecidableEq

/-- One scanner step: consume a character, possibly emitting the value of
a just-finished digit group. -/
def scanStep (s : ScanState) (c : Char) : ScanState × Option ℕ :=
  match s with
  | .matchingMarker k =>
    if k = ratingMarker.length then
      if c.isDigit then (.readingDigits (digitVal c), none)
      else (.matchingMarker (markerStep 0 c), none)
    else (.matchingMarker (markerStep k c), none)
  | .readingDigits acc =>
    if c.isDigit then (.readingDigits (acc * 10 + digitVal c), none)
    else (.matchingMarker (markerStep 0 c), some acc)

/-- Run the scanner to the end of the text, flushing a digit group still
open at end of input (the regex also matches a group that ends the text). -/
def scanEmits (s : ScanState) : List Char → List ℕ
  | [] => match s with
          | .readingDigits acc => [acc]
          | .matchingMarker _ => []
  | c :: cs => match scanStep s c with
               | (s1, some v) => v :: scanEmits s1 cs
               | (s1, none) => scanEmits s1 cs

/-- The emissions of a scanner run without the end-of-input flush. -/
def scanOut (s : ScanState) : List Char → List ℕ
  | [] => []
  | c :: cs => match scanStep s c with
               | (s1, some v) => v :: scanOut s1 cs
               | (s1, none) => scanOut s1 cs

/-- The scanner state after consuming the whole text. -/
def scanFinal (s : ScanState) : List Char → ScanState
  | [] => s
  | c :: cs => scanFinal (scanStep s c).1 cs

/-- The end-of-input flush: a digit group still open becomes a match. -/
def eofFlush (s : ScanState) : List ℕ :=
  match s with
  | .readingDigits acc => [acc]
  | .matchingMarker _ => []

/-- `re.findall` of the rating pattern over the log text: all rating
occurrences, in order (source lines 588-589). -/
def findRatings (content : List Char) : List ℕ :=
  scanEmits (.matchingMarker 0) content

/-- `get_latest_concentration_rating` (source lines 577-600): `none` when
the log file does not exist or contains no rating marker, otherwise the
integer of the last occurrence. -/
def get_latest_concentration_rating (fileExists : Bool) (content : List Char) :
    Option ℕ :=
  if fileExists then (findRatings content).getLast? else none

/-- The static rating-to-action table of `get_action_by_rating` (source
lines 606-617). -/
def rating_to_action_map (rating : ℕ) : Option String :=
  if rating = 10 then some "10_shake"
  else if rating = 11 then some "11_angry"
  else if rating = 20 then some "curious"
  else if rating = 21 then some "21_standup"
  else if rating = 30 then some "30_nod1"
  else if rating = 31 then some "31_wiggle"
  else if rating = 40 then some "excited"
  else if rating = 41 then some "41_courage"
  else if rating = 50 then some "happy_wiggle"
  else if rating = 51 then some "51_scanning"
  else none

/-- `get_action_by_rating` (source lines 603-629): look the rating up in
the static table; an action name is returned only if its recording is
among the available actions, otherwise a warning is logged and `None` is
returned; an unknown rating is logged and yields `None`. -/
def get_action_by_rating (rating : ℕ) (available_actions : List String) :
    Option String :=
  match rating_to_action_map rating with
  | some a => if a ∈ available_actions then some a else none
  | none => none

/-- The action a monitor tick dispatches for a given log state (source
lines 480-504): the latest rating is read and mapped through
`get_action_by_rating`; `none` means nothing is dispatched this tick. -/
def monitorDispatch (fileExists : Bool) (content : List Char)
    (available_actions : List String) : Option String :=
  match get_latest_concentration_rating fileExists content with
  | some r => get_action_by_rating r available_actions
  | none => none

/-- A log record as the vision pipeline appends it: the marker, a digit
group, and a newline. -/
def ratingRecord (ds : List Char) : List Char :=
  ratingMarker ++ ds ++ ['\n']

/-- A concrete log text whose last rating is 30. -/
def c5LogContent : List Char :=
  String.toList "专注状态评级: 20\n一些文字\n专注状态评级: 30\n"

/-! ## Monitoring loop (`focus_monitoring_loop`)

Source: `src/lelamp/test/main.py` lines 438-525.  Each iteration checks
the shared `start_focus_state` flag (exiting and stopping the
FocusService if it was cleared externally), then the elapsed wall-clock
time against `total_duration_min * 60` seconds (on timeout: clears the
flag, stops the FocusService and exits), then reads the latest rating and
— if it maps to an available action — starts a new daemon thread running
`execute_action` (lines 494-502; no check of any in-flight action is
made), and finally sleeps 10 seconds.  We model iteration `n` as
happening at elapsed time `10 * n` seconds; `extClear n = true` means an
external command had cleared the flag by iteration `n`; `ratingAt n` is
the rating read at iteration `n`. -/

/-- Outcome of the monitoring loop: elapsed seconds at exit, the value of
the `start_focus` flag at exit, and whether `focus_service.stop()` was
called. -/
structure MonitorResult where
  exitElapsed : ℕ
  flagAtExit : Bool
  serviceStopped : Bool
deriving DecidableEq

/-- The monitoring loop (source lines 462-515), fuel-bounded: returns the
exit outcome (`none` if the fuel ran out first) and the list of
`(iteration, action name)` dispatches the loop spawned. -/
def focus_monitoring_loop (extClear : ℕ → Bool) (ratingAt : ℕ → Option ℕ)
    (available_actions : List String) (durationSeconds : ℕ) :
    ℕ → ℕ → Option MonitorResult × List (ℕ × String)
  | 0, _ => (none, [])
  | fuel + 1, n =>
    if extClear n then (some ⟨10 * n, false, true⟩, [])
    else if 0 < durationSeconds ∧ durationSeconds ≤ 10 * n then
      (some ⟨10 * n, false, true⟩, [])
    else
      let dispatched : List (ℕ × String) :=
        match ratingAt n with
        | some r =>
          match get_action_by_rating r available_actions with
          | some a => [(n, a)]
          | none => []
        | none => []
      let rest := focus_monitoring_loop extClear ratingAt available_actions
        durationSeconds fuel (n + 1)
      (rest.1, dispatched ++ rest.2)

/-- Number of action replays in flight at second `τ`, given that each
dispatched action occupies its thread for `durSeconds` seconds from the
10-second tick it was spawned at: `execute_action` replays the recording
frame by frame, so a recording of `k` frames at 30 fps runs for `k / 30`
seconds on its spawned thread. -/
def inFlightCount (dispatches : List (ℕ × String)) (durSeconds τ : ℕ) : ℕ :=
  (dispatches.filter (fun d => decide (10 * d.1 ≤ τ ∧ τ < 10 * d.1 + durSeconds))).length

/-! ## Action interleaving (`execute_action`)

Source: `src/lelamp/test/main.py` lines 644-685: pause the FocusService,
replay the recording inside `try`, catch `FileNotFoundError` and any
other exception in handlers that only log, and resume the FocusService in
the `finally` block. -/

/-- The observable outcomes of the replay body of `execute_action`. -/
inductive ReplayOutcome where
  | ok (frames : ℕ)
  | fileNotFound
  | replayError
deriving DecidableEq

/-- Events visible to the FocusService and the actuator during
`execute_action`.  `stopSession` is the event `focus_service.stop()`
would emit; `execute_action` never calls it. -/
inductive LampEvent where
  | pauseSession
  | replayFrames (n : ℕ)
  | logFileNotFound
  | logReplayError
  | resumeSession
  | stopSession
deriving DecidableEq

/-- The error classes distinguished by the two `except` clauses. -/
inductive ReplayErr where
  | fileNotFound
  | other
deriving DecidableEq

/-- The `try` body of `execute_action` (source lines 659-676): opening a
missing recording raises `FileNotFoundError`; any other failure during
replay raises a generic exception; otherwise the frames are sent. -/
def replayRecordingBody : ReplayOutcome → Except ReplayErr (List LampEvent)
  | .ok n => .ok [.replayFrames n]
  | .fileNotFound => .error .fileNotFound
  | .replayError => .error .other

/-- `execute_action` (source lines 644-685): `pause()` first, then the
`try`/`except`/`finally` block — the handlers only log, and the `finally`
clause calls `resume()` on every path. -/
def execute_action (o : ReplayOutcome) : List LampEvent :=
  [.pauseSession] ++
  (match replayRecordingBody o with
   | .ok evs => evs
   | .error .fileNotFound => [.logFileNotFound]
   | .error .other => [.logReplayError]) ++
  [.resumeSession]

/-! ## Homing stability loop (`MotorsService._go_home`)

Source: `src/lelamp/service/motors/motors_service.py` lines 81-132.
After sending the home position, the loop samples joint positions every
100 ms, counting consecutive samples in which no joint moved more than
0.5 position-units since the previous sample; a read failure or a moving
sample resets the counter; after 5 consecutive stable samples it sleeps
one extra second and reports homing complete.  A read is `none` on
failure, or the `(joint, position)` map `sync_read` returned. -/

/-- A joint-position map as returned by `sync_read("Present_Position")`. -/
def JointPositions : Type := List (String × ℚ)

/-- `last_positions.get(motor_name, 0)` (source line 108): the previous
position of a joint, defaulting to 0. -/
def jointGetD (l : JointPositions) (k : String) : ℚ :=
  match List.find? (fun p => p.1 = k) l with
  | some p => p.2
  | none => 0

/-- Source line 97: the movement threshold in position-units. -/
def MOVEMENT_THRESHOLD : ℚ := 0.5

/-- Source line 99: consecutive stable reads required. -/
def STABLE_READS_REQUIRED : ℕ := 5

/-- Source line 123: the polling interval in seconds. -/
def HOMING_POLL_INTERVAL : ℚ := 0.1

/-- Source line 126: the extra grace period in seconds after stability. -/
def HOMING_GRACE_PERIOD : ℚ := 1

/-- Source lines 106-111: a sample is "moving" if some joint's absolute
movement since the previous sample exceeds the threshold. -/
def isMovingSample (cur last : JointPositions) : Bool :=
  cur.any (fun p => decide (MOVEMENT_THRESHOLD < |p.2 - jointGetD last p.1|))

/-- The loop state: the previous sample (if any) and the consecutive
stable counter. -/
structure HomingState where
  last_positions : Option JointPositions
  stable_counter : ℕ

/-- One iteration of the stability loop body (source lines 102-123): a
failed read resets the counter and keeps the previous sample; a
successful read against no previous sample leaves the counter unchanged;
otherwise the counter resets on movement and increments on stability. -/
def homingStep (s : HomingState) (r : Option JointPositions) : HomingState :=
  match r with
  | none => ⟨s.last_positions, 0⟩
  | some cur =>
    match s.last_positions with
    | none => ⟨some cur, s.stable_counter⟩
    | some lp =>
      if isMovingSample cur lp then ⟨some cur, 0⟩
      else ⟨some cur, s.stable_counter + 1⟩

/-- The stability loop (source lines 101-123) over a stream of read
results: returns the number of 100 ms polling iterations consumed before
the loop condition `stable_counter < STABLE_READS_REQUIRED` failed, or
`none` if the stream ended with the loop still polling. -/
def homingLoop (s : HomingState) : List (Option JointPositions) → Option ℕ
  | [] => if STABLE_READS_REQUIRED ≤ s.stable_counter then some 0 else none
  | r :: rs =>
    if STABLE_READS_REQUIRED ≤ s.stable_counter then some 0
    else (homingLoop (homingStep s r) rs).map (· + 1)

/-- Seconds from entering the stability loop to reporting homing complete
(source lines 101-128): the polling iterations plus the one-second grace
period. -/
def homingReportTime (reads : List (Option JointPositions)) : Option ℚ :=
  (homingLoop ⟨none, 0⟩ reads).map
    (fun n => (n : ℚ) * HOMING_POLL_INTERVAL + HOMING_GRACE_PERIOD)

/-- A concrete joint-position sample. -/
def homingExampleRead : JointPositions := [("base", 10), ("elbow", 5 / 2)]

/-- A concrete pair of samples differing by more than the threshold on
one joint. -/
def homingMovedRead : JointPositions := [("base", 11), ("elbow", 5 / 2)]

/-! ## Phase-loop lemmas -/

/-- If the stop event never fires, the inner wait runs for exactly the
phase's duration in ticks, whatever the pause trace does. -/
theorem phaseWait_of_not_stop (stop running : ℕ → Bool)
    (h : ∀ x, stop x = false) :
    ∀ (d τ : ℕ), phaseWait stop running τ d = (τ + d, false) := by
  intro d
  induction d with
  | zero => intro τ; simp [phaseWait]
  | succ d ih =>
    intro τ
    simp only [phaseWait, h τ, Bool.false_eq_true, if_false, ih (τ + 1)]
    simp only [Prod.mk.injEq]
    exact ⟨by omega, by trivial⟩

/-- Monotone stop events: if the wait ends at or after the tick the stop
event was set, it ends within that very tick. -/
theorem phaseWait_finish_le (stop running : ℕ → Bool) (T : ℕ)
    (mono : ∀ a b : ℕ, a ≤ b → stop a = true → stop b = true)
    (hT : stop T = true) :
    ∀ (d τ : ℕ), T ≤ (phaseWait stop running τ d).1 →
      (phaseWait stop running τ d).1 ≤ max τ T := by
  intro d
  induction d with
  | zero => intro τ hτ; simp [phaseWait]
  | succ d ih =>
    intro τ hτ
    by_cases hs : stop τ = true
    · simp [phaseWait, hs, le_max_left]
    · have hτT : τ < T := by
        by_contra hle
        exact hs (mono T τ (by omega) hT)
      simp only [phaseWait, hs, Bool.false_eq_true, if_false] at hτ ⊢
      have := ih (τ + 1) hτ
      have hmax : max (τ + 1) T = T := by omega
      omega

/-- A stop event already set when the phase loop reaches a new phase
prevents that phase (and all later ones) from starting. -/
theorem runPhases_of_stop (stop running : ℕ → Bool) (τ : ℕ)
    (sched : List ℕ) (hne : sched ≠ []) (hs : stop τ = true) :
    runPhases stop running τ sched = ⟨τ, false, 0⟩ := by
  cases sched with
  | nil => exact absurd rfl hne
  | cons d rest => simp [runPhases, hs]

/-- If the stop event never fires, the phase loop runs every phase to
completion: it finishes after the sum of the durations, reports normal
completion, and starts every phase. -/
theorem runPhases_of_not_stop (stop running : ℕ → Bool)
    (h : ∀ x, stop x = false) :
    ∀ (sched : List ℕ) (τ : ℕ),
      runPhases stop running τ sched = ⟨τ + sched.sum, true, sched.length⟩ := by
  intro sched
  induction sched with
  | nil => intro τ; simp [runPhases]
  | cons d rest ih =>
    intro τ
    simp only [runPhases, h τ, Bool.false_eq_true, if_false,
      phaseWait_of_not_stop stop running h d τ, h (τ + d), ih (τ + d)]
    simp only [List.sum_cons, List.length_cons, PhaseRunOut.mk.injEq]
    exact ⟨by omega, by trivial, by trivial⟩

/-- Monotone stop events: if the stop was signaled at or before the tick
the phase loop exits, the loop reports an abort and exits within one tick
of the signal. -/
theorem runPhases_stopped (stop running : ℕ → Bool) (T : ℕ)
    (mono : ∀ a b : ℕ, a ≤ b → stop a = true → stop b = true)
    (hT : stop T = true) :
    ∀ (sched : List ℕ) (τ : ℕ), sched ≠ [] →
      T ≤ (runPhases stop running τ sched).finish →
      (runPhases stop running τ sched).completedNormally = false ∧
        (runPhases stop running τ sched).finish ≤ max τ T := by
  intro sched
  induction sched with
  | nil => intro τ hne; exact absurd rfl hne
  | cons d rest ih =>
    intro τ hne hfin
    by_cases hs : stop τ = true
    · simp [runPhases, hs, le_max_left]
    · have hτT : τ < T := by
        by_contra hle
        exact hs (mono T τ (by omega) hT)
      simp only [runPhases, hs, Bool.false_eq_true, if_false] at hfin ⊢
      by_cases hw2 : (phaseWait stop running τ d).2 = true
      · simp only [hw2, if_true] at hfin ⊢
        exact ⟨by trivial, phaseWait_finish_le stop running T mono hT d τ hfin⟩
      · simp only [hw2, Bool.false_eq_true, if_false] at hfin ⊢
        by_cases hsw : stop (phaseWait stop running τ d).1 = true
        · simp only [hsw, if_true] at hfin ⊢
          exact ⟨by trivial, phaseWait_finish_le stop running T mono hT d τ hfin⟩
        · simp only [hsw, Bool.false_eq_true, if_false] at hfin ⊢
          have hwT : (phaseWait stop running τ d).1 < T := by
            by_contra hle
            exact hsw (mono T _ (by omega) hT)
          cases rest with
          | nil =>
            simp only [runPhases] at hfin
            omega
          | cons e rest2 =>
            have hrec := ih (phaseWait stop running τ d).1 (by simp) hfin
            refine ⟨hrec.1, ?_⟩
            have := hrec.2
            omega

/-! ## Claim C1 -/

/-- C1 counterexample: a phase of 3 ticks during which the session is
paused for 2 ticks (paused at tick 1, resumed at tick 3) still completes
at tick 3, not within one tick of duration + pause = 5 ticks: the claim
that pausing leaves the phase's remaining budget unchanged and makes
wall-clock-to-completion equal D + Δt is false of the code, which
compares wall-clock elapsed time against the duration. -/
theorem focus_c1_counterexample :
    phaseWait stopNever pausedOneToThree 0 3 = (3, false) ∧ 3 + 1 < 3 + 2 := by
  constructor
  · decide
  · omega

/-- C1 (amended): while the session is paused, the elapsed-time
accounting of the in-progress phase keeps advancing: for any phase of
duration D ticks and any pause/resume trace, as long as the stop event is
not signaled, wall-clock time from phase start to phase completion is
exactly D ticks — pausing for Δt does not add Δt to the phase. -/
theorem focus_c1_pause_does_not_freeze (stop running : ℕ → Bool) (τ0 d : ℕ)
    (h : ∀ x, stop x = false) :
    phaseWait stop running τ0 d = (τ0 + d, false) :=
  phaseWait_of_not_stop stop running h d τ0

/-- C1 witness: the amended theorem applied to the counterexample's
concrete pause trace. -/
theorem focus_c1_pause_does_not_freeze_witness :
    phaseWait stopNever pausedOneToThree 0 3 = (0 + 3, false) :=
  focus_c1_pause_does_not_freeze stopNever pausedOneToThree 0 3 (fun _ => rfl)

/-! ## Claim C2 -/

/-- C2: with a monotone stop event (stop() sets `_stop_event` once and
nothing clears it during a session): (a) if the stop was signaled at tick
T at or before the loop's exit and the schedule is non-empty, the session
does not complete normally, the completion callback is not invoked, and
the loop exits within the tick of the signal; (b) if the stop is already
set when the loop starts, no phase starts at all; (c) if the stop is
never signaled, the loop runs every phase, completes normally, and
invokes the completion callback exactly once. -/
theorem focus_c2_stop_and_completion (stop running : ℕ → Bool) (τ0 T : ℕ)
    (sched : List ℕ)
    (mono : ∀ a b : ℕ, a ≤ b → stop a = true → stop b = true) :
    (sched ≠ [] → stop T = true →
      T ≤ (run_focus_session stop running τ0 sched).finish →
      (run_focus_session stop running τ0 sched).completedNormally = false ∧
        (run_focus_session stop running τ0 sched).callbackCalls = 0 ∧
        (run_focus_session stop running τ0 sched).finish ≤ max τ0 T) ∧
    (stop τ0 = true → sched ≠ [] →
      run_focus_session stop running τ0 sched = ⟨τ0, false, 0, 0⟩) ∧
    ((∀ x, stop x = false) →
      (run_focus_session stop running τ0 sched).completedNormally = true ∧
        (run_focus_session stop running τ0 sched).callbackCalls = 1 ∧
        (run_focus_session stop running τ0 sched).phasesStarted = sched.length ∧
        (run_focus_session stop running τ0 sched).finish = τ0 + sched.sum) := by
  refine ⟨?_, ?_, ?_⟩
  · intro hne hT hfin
    have hrp := runPhases_stopped stop running T mono hT sched τ0 hne
      (by simpa [run_focus_session] using hfin)
    simp [run_focus_session, hrp.1, hrp.2]
  · intro hs hne
    simp [run_focus_session, runPhases_of_stop stop running τ0 sched hne hs]
  · intro h
    simp [run_focus_session, runPhases_of_not_stop stop running h sched τ0]

/-- C2 witness: a session of two phases (3 and 2 ticks) with the stop
event set from tick 2 aborts at tick 2 without invoking the callback. -/
theorem focus_c2_stop_and_completion_witness :
    (run_focus_session stopFromTick2 pausedOneToThree 0 [3, 2]).completedNormally = false ∧
      (run_focus_session stopFromTick2 pausedOneToThree 0 [3, 2]).callbackCalls = 0 ∧
      (run_focus_session stopFromTick2 pausedOneToThree 0 [3, 2]).finish ≤ max 0 2 :=
  (focus_c2_stop_and_completion stopFromTick2 pausedOneToThree 0 2 [3, 2]
      (by intro a b hab h; simp only [stopFromTick2, decide_eq_true_eq] at h ⊢; omega)).1
    (by simp) (by decide) (by decide)

/-! ## Schedule lemmas -/

/-- Evaluation of the schedule at the spec's literal regression
parameters (start 14:00, 120 minutes, fatigue 4, convergent mode). -/
theorem schedule_fixture_14_0_120 :
    calculate_light_schedule 14 0 120 4 1 = [(1080, 5800, 750), (7200, 3000, 750)] := by
  simp only [calculate_light_schedule, focusTWakeupRaw, focusTModerateRaw, focusTLowRaw,
    focusPModerate, focusTBefore17]
  norm_num [min_def, max_def]

/-- A clamped phase block contributes `60 * duration` to the schedule sum
whether or not it is emitted. -/
theorem sum_if_phase (x : ℚ) (k l : ℤ) (hx : 0 ≤ x) :
    ((if 0 < x then [(x * 60, k, l)] else []).map Prod.fst).sum = 60 * x := by
  split_ifs with hpos
  · simp [mul_comm]
  · have hx0 : x = 0 := le_antisymm (not_lt.mp hpos) hx
    simp [hx0]

/-- The schedule's total duration is sixty times the sum of the three
clamped phase lengths, for all parameters. -/
theorem schedule_sum_eq (h m t f M : ℤ) :
    ((calculate_light_schedule h m t f M).map Prod.fst).sum =
      60 * (max 0 (focusTWakeupRaw h m t f) + max 0 (focusTModerateRaw h m t M) +
        max 0 (focusTLowRaw h m t f M)) := by
  simp only [calculate_light_schedule]
  rw [List.map_append, List.map_append, List.sum_append, List.sum_append]
  rw [sum_if_phase _ 5800 750 (le_max_left 0 _), sum_if_phase _ 3000 250 (le_max_left 0 _)]
  by_cases h90 : 90 < t
  · simp only [if_pos h90]
    rw [sum_if_phase _ 3000 750 (le_max_left 0 _)]
    ring
  · simp only [if_neg h90]
    rw [sum_if_phase _ 4500 450 (le_max_left 0 _)]
    ring

/-- Every emitted phase has strictly positive duration, for all
parameters: a phase is appended only under a `0 < duration` guard. -/
theorem schedule_pos (h m t f M : ℤ) :
    ∀ p ∈ calculate_light_schedule h m t f M, 0 < p.1 := by
  intro p hp
  simp only [calculate_light_schedule, List.mem_append] at hp
  have h60 : (0 : ℚ) < 60 := by norm_num
  rcases hp with (hp | hp) | hp
  · split_ifs at hp with hpos
    · simp only [List.mem_singleton] at hp
      subst hp
      exact mul_pos hpos h60
    · simp at hp
  · split_ifs at hp with hpos h90
    · simp only [List.mem_singleton] at hp
      subst hp
      exact mul_pos hpos h60
    · simp only [List.mem_singleton] at hp
      subst hp
      exact mul_pos hpos h60
    · simp at hp
  · split_ifs at hp with hpos
    · simp only [List.mem_singleton] at hp
      subst hp
      exact mul_pos hpos h60
    · simp at hp

/-- The spec-side clamped wake-up minutes agree with the source's. -/
theorem specTWakeup_eq (h m t f : ℤ) :
    specTWakeup h m t f = max 0 (focusTWakeupRaw h m t f) := by
  simp only [specTWakeup, focusTWakeupRaw]
  congr 1
  split_ifs <;> ring

/-- The spec-side clamped moderate minutes agree with the source's. -/
theorem specTModerate_eq (h m t M : ℤ) :
    specTModerate h m t M = max 0 (focusTModerateRaw h m t M) := by
  simp only [specTModerate, focusTModerateRaw, focusPModerate, focusTBefore17]

/-- The spec-side clamped low minutes agree with the source's. -/
theorem specTLow_eq (h m t f M : ℤ) :
    specTLow h m t f M = max 0 (focusTLowRaw h m t f M) := by
  simp only [specTLow, focusTLowRaw, focusTWakeupRaw, focusTModerateRaw, focusPModerate,
    focusTBefore17]
  congr 1
  split_ifs <;> ring

/-- Under valid parameters the source's unclamped wake-up minutes are
already nonnegative in every branch. -/
theorem focusTWakeupRaw_nonneg (h m t f : ℤ) (hh : 0 ≤ h) (hm1 : 0 ≤ m) (hm2 : m ≤ 59)
    (ht : 0 < t) (hf : 1 ≤ f) :
    0 ≤ focusTWakeupRaw h m t f := by
  have htQ : (0 : ℚ) < (t : ℚ) := by exact_mod_cast ht
  have hfQ : (1 : ℚ) ≤ (f : ℚ) := by exact_mod_cast hf
  simp only [focusTWakeupRaw]
  split_ifs with h17 h12 hf5 hf4
  · exact le_refl 0
  · nlinarith
  · nlinarith
  · exact le_refl 0
  · have hhQ : (h : ℚ) ≤ 11 := by exact_mod_cast (by omega : h ≤ 11)
    have hmQ : (m : ℚ) ≤ 59 := by exact_mod_cast hm2
    have hX0 : (0 : ℚ) ≤ max ((h : ℚ) * 60 + (m : ℚ) - 480) 0 := le_max_right _ 0
    have hX : max ((h : ℚ) * 60 + (m : ℚ) - 480) 0 ≤ 239 :=
      max_le (by linarith) (by norm_num)
    have hfac2 : (0 : ℚ) ≤ 30 - 0.0833 * max ((h : ℚ) * 60 + (m : ℚ) - 480) 0 := by
      nlinarith
    have hfac1 : (0 : ℚ) ≤ 0.7 + 0.1 * (f : ℚ) := by linarith
    have hnum := mul_nonneg (le_of_lt htQ) (mul_nonneg hfac1 hfac2)
    positivity

/-- Under valid parameters the source's unclamped moderate minutes are
nonnegative. -/
theorem focusTModerateRaw_nonneg (h m t M : ℤ) (ht : 0 < t) :
    0 ≤ focusTModerateRaw h m t M := by
  have htQ : (0 : ℚ) < (t : ℚ) := by exact_mod_cast ht
  exact mul_nonneg (le_of_lt htQ) (le_max_left 0 _)

/-! ## Claim C4 -/

/-- C4: for parameters start 14:00, 120 minutes, fatigue 4, convergent
mode, the schedule is exactly a 1080-second wake-up phase at 5800 K /
750 lx followed by a 7200-second moderate phase at 3000 K / 750 lx (the
`t > 90` variant), with no low phase. -/
theorem focus_c4_regression_fixture :
    calculate_light_schedule 14 0 120 4 1 = [(1080, 5800, 750), (7200, 3000, 750)] :=
  schedule_fixture_14_0_120

/-! ## Claim C3 -/

/-- C3: for all valid session parameters, every emitted phase has
strictly positive duration, and the sum of the emitted phases' durations
in seconds is sixty times the sum of the spec's three closed-form phase
lengths, each clamped to be nonnegative. -/
theorem focus_c3_schedule_sum (h m t f M : ℤ)
    (hh : 0 ≤ h ∧ h ≤ 23) (hm : 0 ≤ m ∧ m ≤ 59) (ht : 0 < t)
    (hf : 1 ≤ f ∧ f ≤ 5) (hM : M = 1 ∨ M = -1) :
    (∀ p ∈ calculate_light_schedule h m t f M, 0 < p.1) ∧
      ((calculate_light_schedule h m t f M).map Prod.fst).sum =
        60 * (specTWakeup h m t f + specTModerate h m t M + specTLow h m t f M) := by
  refine ⟨schedule_pos h m t f M, ?_⟩
  rw [schedule_sum_eq, specTWakeup_eq, specTModerate_eq, specTLow_eq]

/-- C3 witness: the theorem applied to the valid parameters
(9:30, 45 minutes, fatigue 2, divergent mode). -/
theorem focus_c3_schedule_sum_witness :
    (∀ p ∈ calculate_light_schedule 9 30 45 2 (-1), 0 < p.1) ∧
      ((calculate_light_schedule 9 30 45 2 (-1)).map Prod.fst).sum =
        60 * (specTWakeup 9 30 45 2 + specTModerate 9 30 45 (-1) + specTLow 9 30 45 2 (-1)) :=
  focus_c3_schedule_sum 9 30 45 2 (-1) (by omega) (by omega) (by omega) (by omega)
    (Or.inr rfl)

/-! ## Claim C10 -/

/-- C10: for all valid session parameters, the schedule's total duration
is at least `60 * total_duration_min` seconds, and strictly exceeds it
whenever the unclamped wake-up plus moderate minutes exceed the total
(only the low phase can clamp to zero); in particular the parameters
(14:00, 120 min, fatigue 4, convergent) yield 138 minutes of phases. -/
theorem focus_c10_schedule_overrun (h m t f M : ℤ)
    (hh : 0 ≤ h ∧ h ≤ 23) (hm : 0 ≤ m ∧ m ≤ 59) (ht : 0 < t)
    (hf : 1 ≤ f ∧ f ≤ 5) (hM : M = 1 ∨ M = -1) :
    (60 * (t : ℚ) ≤ ((calculate_light_schedule h m t f M).map Prod.fst).sum) ∧
      ((t : ℚ) < focusTWakeupRaw h m t f + focusTModerateRaw h m t M →
        60 * (t : ℚ) < ((calculate_light_schedule h m t f M).map Prod.fst).sum) ∧
      ((calculate_light_schedule 14 0 120 4 1).map Prod.fst).sum = 138 * 60 := by
  have hTw : max 0 (focusTWakeupRaw h m t f) = focusTWakeupRaw h m t f :=
    max_eq_right (focusTWakeupRaw_nonneg h m t f hh.1 hm.1 hm.2 ht hf.1)
  have hTm : max 0 (focusTModerateRaw h m t M) = focusTModerateRaw h m t M :=
    max_eq_right (focusTModerateRaw_nonneg h m t M ht)
  have hTl : focusTLowRaw h m t f M ≤ max 0 (focusTLowRaw h m t f M) := le_max_right _ _
  have hTl0 : (0 : ℚ) ≤ max 0 (focusTLowRaw h m t f M) := le_max_left _ _
  have hlow : focusTLowRaw h m t f M =
      (t : ℚ) - focusTWakeupRaw h m t f - focusTModerateRaw h m t M := rfl
  refine ⟨?_, ?_, ?_⟩
  · rw [schedule_sum_eq, hTw, hTm]
    nlinarith [hTl, hlow]
  · intro hgt
    rw [schedule_sum_eq, hTw, hTm]
    nlinarith [hTl0]
  · rw [schedule_fixture_14_0_120]
    norm_num

/-- C10 witness: the theorem applied at the regression parameters, whose
unclamped wake-up plus moderate minutes (18 + 120) exceed the
120-minute total, giving a schedule strictly longer than the session. -/
theorem focus_c10_schedule_overrun_witness :
    60 * ((120 : ℤ) : ℚ) ≤ ((calculate_light_schedule 14 0 120 4 1).map Prod.fst).sum :=
  (focus_c10_schedule_overrun 14 0 120 4 1 (by omega) (by omega) (by omega) (by omega)
    (Or.inl rfl)).1

/-! ## Scanner lemmas -/

/-- A scanner run is its non-flush emissions followed by the end-of-input
flush of its final state. -/
theorem scanEmits_eq_scanOut :
    ∀ (xs : List Char) (s : ScanState),
      scanEmits s xs = scanOut s xs ++ eofFlush (scanFinal s xs) := by
  intro xs
  induction xs with
  | nil => intro s; cases s <;> simp [scanEmits, scanOut, scanFinal, eofFlush]
  | cons c cs ih =>
    intro s
    rcases hstep : scanStep s c with ⟨s1, out⟩
    cases out with
    | some v => simp [scanEmits, scanOut, scanFinal, hstep, ih s1]
    | none => simp [scanEmits, scanOut, scanFinal, hstep, ih s1]

/-- The final state of a scan over a concatenation. -/
theorem scanFinal_append :
    ∀ (xs ys : List Char) (s : ScanState),
      scanFinal s (xs ++ ys) = scanFinal (scanFinal s xs) ys := by
  intro xs
  induction xs with
  | nil => intro ys s; simp [scanFinal]
  | cons c cs ih => intro ys s; simp [scanFinal, ih]

/-- The non-flush emissions of a scan over a concatenation. -/
theorem scanOut_append :
    ∀ (xs ys : List Char) (s : ScanState),
      scanOut s (xs ++ ys) = scanOut s xs ++ scanOut (scanFinal s xs) ys := by
  intro xs
  induction xs with
  | nil => intro ys s; simp [scanOut, scanFinal]
  | cons c cs ih =>
    intro ys s
    rcases hstep : scanStep s c with ⟨s1, out⟩
    cases out with
    | some v => simp [scanOut, scanFinal, hstep, ih]
    | none => simp [scanOut, scanFinal, hstep, ih]

/-- A scanner run over a concatenation: the left part contributes its
non-flush emissions, the right part is scanned from the carried state. -/
theorem scanEmits_append (xs ys : List Char) (s : ScanState) :
    scanEmits s (xs ++ ys) = scanOut s xs ++ scanEmits (scanFinal s xs) ys := by
  rw [scanEmits_eq_scanOut, scanOut_append, scanFinal_append,
    scanEmits_eq_scanOut ys, List.append_assoc]

/-- Reading the marker's first character always restarts a marker match
at offset 1, whatever the matcher state was. -/
theorem markerStep_start : ∀ k : ℕ, markerStep k '专' = 1 := by
  intro k
  match k with
  | 0 => decide
  | 1 => decide
  | 2 => decide
  | 3 => decide
  | 4 => decide
  | 5 => decide
  | 6 => decide
  | 7 => decide
  | n + 8 =>
    have hd : ratingMarker.getD (n + 8) ' ' = ' ' :=
      List.getD_eq_default _ _ (by simp [ratingMarker])
    rw [markerStep, hd, if_neg (by decide : ¬('专' : Char) = ' '), if_pos rfl]

/-- One scanner step on the marker's first character, from any state:
the state becomes "one marker character matched", and a pending digit
group is emitted. -/
theorem scanStep_start (s : ScanState) :
    scanStep s '专' = (ScanState.matchingMarker 1,
      match s with
      | .readingDigits acc => some acc
      | .matchingMarker _ => none) := by
  cases s with
  | matchingMarker k =>
    by_cases hk : k = ratingMarker.length
    · simp [scanStep, hk, markerStep_start]
    · simp [scanStep, hk, markerStep_start]
  | readingDigits acc => simp [scanStep, markerStep_start]

/-- A scanner run on text starting with the marker's first character,
from any state. -/
theorem scanEmits_start (s : ScanState) (rest : List Char) :
    scanEmits s ('专' :: rest) =
      eofFlush s ++ scanEmits (.matchingMarker 1) rest := by
  cases s with
  | matchingMarker k => simp [scanEmits, scanStep_start, eofFlush]
  | readingDigits acc => simp [scanEmits, scanStep_start, eofFlush]

/-- Consuming the remaining seven marker characters advances the matcher
from offset 1 to the full match. -/
theorem scanEmits_marker_tail (rest : List Char) :
    scanEmits (.matchingMarker 1) ('注' :: '状' :: '态' :: '评' :: '级' :: ':' :: ' ' :: rest) =
      scanEmits (.matchingMarker 8) rest := rfl

/-- Consuming a run of digit characters accumulates their value. -/
theorem scanEmits_digit_run :
    ∀ (ds : List Char), (∀ c ∈ ds, c.isDigit = true) →
      ∀ (acc : ℕ) (rest : List Char),
        scanEmits (.readingDigits acc) (ds ++ rest) =
          scanEmits (.readingDigits (ds.foldl (fun a c => a * 10 + digitVal c) acc)) rest := by
  intro ds
  induction ds with
  | nil => intro _ acc rest; simp
  | cons d ds ih =>
    intro hdig acc rest
    have hd : d.isDigit = true := hdig d (List.mem_cons_self d ds)
    simp only [List.cons_append, scanEmits, scanStep, hd, if_true, List.foldl_cons]
    exact ih (fun c hc => hdig c (List.mem_cons_of_mem d hc)) _ rest

/-- A full rating record (marker, digits, newline), scanned from any
state: it flushes any pending digit group and then emits exactly the
value of its digit group. -/
theorem scanEmits_record (s : ScanState) (ds : List Char) (hne : ds ≠ [])
    (hdig : ∀ c ∈ ds, c.isDigit = true) :
    scanEmits s (ratingRecord ds) = eofFlush s ++ [digitsToNat ds] := by
  cases ds with
  | nil => exact absurd rfl hne
  | cons d ds2 =>
    have hd : d.isDigit = true := hdig d (List.mem_cons_self d ds2)
    have hds2 : ∀ c ∈ ds2, c.isDigit = true :=
      fun c hc => hdig c (List.mem_cons_of_mem d hc)
    show scanEmits s ('专' :: ('注' :: '状' :: '态' :: '评' :: '级' :: ':' :: ' ' ::
      ((d :: ds2) ++ ['\n']))) = eofFlush s ++ [digitsToNat (d :: ds2)]
    rw [scanEmits_start, scanEmits_marker_tail]
    congr 1
    have hstep8 : scanStep (.matchingMarker 8) d = (.readingDigits (digitVal d), none) := by
      simp [scanStep, ratingMarker, hd]
    simp only [List.cons_append, scanEmits, hstep8, List.append_eq]
    rw [scanEmits_digit_run ds2 hds2 (digitVal d) ['\n']]
    have hnl : scanStep (.readingDigits (ds2.foldl (fun a c => a * 10 + digitVal c)
        (digitVal d))) '\n' = (.matchingMarker (markerStep 0 '\n'),
          some (ds2.foldl (fun a c => a * 10 + digitVal c) (digitVal d))) := by
      simp [scanStep]
    simp only [scanEmits, hnl, digitsToNat, List.foldl_cons]
    simp [eofFlush]

/-- Appending a fresh rating record to any log text appends exactly one
parsed rating: the record's value.  This is the "most recent wins"
behaviour of the regex scan. -/
theorem findRatings_append_record (content ds : List Char) (hne : ds ≠ [])
    (hdig : ∀ c ∈ ds, c.isDigit = true) :
    findRatings (content ++ ratingRecord ds) = findRatings content ++ [digitsToNat ds] := by
  unfold findRatings
  rw [scanEmits_append, scanEmits_record _ ds hne hdig,
    scanEmits_eq_scanOut content, List.append_assoc]

/-! ## Claim C5 -/

/-- C5 counterexample: a log whose unambiguous last rating is 30 — which
the static table maps to "30_nod1" — dispatches nothing when that
recording is not among the available actions, so "the dispatched action
is exactly the table's entry for it" is false as stated. -/
theorem focus_c5_counterexample :
    get_latest_concentration_rating true c5LogContent = some 30 ∧
      rating_to_action_map 30 = some "30_nod1" ∧
      monitorDispatch true c5LogContent [] = none := by
  refine ⟨by decide, by decide, by decide⟩

/-- C5 (amended): on each monitor tick the rating used is the integer of
the last occurrence of the rating marker in the signal-source text (and
`none` when the file is absent or contains no marker); a rating in the
static table dispatches exactly the table's entry provided that entry is
among the available recordings, and dispatches nothing otherwise; rating
0 and any rating outside the table dispatch nothing. -/
theorem focus_c5_rating_dispatch :
    (∀ (content : List Char) (avail : List String),
        monitorDispatch false content avail = none) ∧
    (∀ (content : List Char) (avail : List String), findRatings content = [] →
        monitorDispatch true content avail = none) ∧
    (∀ (content ds : List Char), ds ≠ [] → (∀ c ∈ ds, c.isDigit = true) →
        get_latest_concentration_rating true (content ++ ratingRecord ds) =
          some (digitsToNat ds)) ∧
    (∀ avail : List String, get_action_by_rating 0 avail = none) ∧
    (∀ (r : ℕ) (avail : List String), rating_to_action_map r = none →
        get_action_by_rating r avail = none) ∧
    (∀ (r : ℕ) (a : String) (avail : List String), rating_to_action_map r = some a →
        get_action_by_rating r avail = if a ∈ avail then some a else none) ∧
    (∀ (content : List Char) (avail : List String),
        monitorDispatch true content avail =
          match (findRatings content).getLast? with
          | some r => get_action_by_rating r avail
          | none => none) := by
  refine ⟨?_, ?_, ?_, ?_, ?_, ?_, ?_⟩
  · intro content avail
    simp [monitorDispatch, get_latest_concentration_rating]
  · intro content avail hempty
    simp [monitorDispatch, get_latest_concentration_rating, hempty]
  · intro content ds hne hdig
    rw [get_latest_concentration_rating, if_pos rfl,
      findRatings_append_record content ds hne hdig]
    simp
  · intro avail
    rfl
  · intro r avail hnone
    simp [get_action_by_rating, hnone]
  · intro r a avail hsome
    simp [get_action_by_rating, hsome]
  · intro content avail
    rfl

/-- C5 witness: appending a record with rating 30 to the concrete log
makes 30 the latest rating, and with the recording available the
dispatched action is exactly the table's entry. -/
theorem focus_c5_rating_dispatch_witness :
    get_latest_concentration_rating true (c5LogContent ++ ratingRecord ['3', '0']) =
        some (digitsToNat ['3', '0']) ∧
      get_action_by_rating 30 ["30_nod1"] =
        (if "30_nod1" ∈ ["30_nod1"] then some "30_nod1" else none) :=
  ⟨(focus_c5_rating_dispatch).2.2.1 c5LogContent ['3', '0'] (by decide) (by decide),
   (focus_c5_rating_dispatch).2.2.2.2.2.1 30 "30_nod1" ["30_nod1"] (by decide)⟩

/-! ## Monitoring-loop lemmas -/

/-- With the session flag never cleared externally and a positive
duration, the monitoring loop (given enough fuel) exits at the first
10-second tick at which the elapsed time reaches the duration, clearing
the flag and stopping the session. -/
theorem monitor_timeout (ratingAt : ℕ → Option ℕ) (avail : List String) (D : ℕ)
    (hD : 0 < D) :
    ∀ (fuel n : ℕ), D + 10 ≤ 10 * (n + fuel) → 10 * n < D + 10 →
      ∃ r : MonitorResult,
        (focus_monitoring_loop (fun _ => false) ratingAt avail D fuel n).1 = some r ∧
          r.flagAtExit = false ∧ r.serviceStopped = true ∧
          D ≤ r.exitElapsed ∧ r.exitElapsed < D + 10 := by
  intro fuel
  induction fuel with
  | zero => intro n hle hlt; omega
  | succ fuel ih =>
    intro n hle hlt
    by_cases hto : D ≤ 10 * n
    · refine ⟨⟨10 * n, false, true⟩, ?_, rfl, rfl, hto, hlt⟩
      simp [focus_monitoring_loop, hD, hto]
    · have hcond : ¬(0 < D ∧ D ≤ 10 * n) := fun hc => hto hc.2
      obtain ⟨r, hr, hflag, hstop, hlo, hhi⟩ :=
        ih (n + 1) (by omega) (by omega)
      refine ⟨r, ?_, hflag, hstop, hlo, hhi⟩
      simp only [focus_monitoring_loop, Bool.false_eq_true, if_false, hcond]
      exact hr

/-- Every tick the monitoring loop reaches before its time budget, whose
rating maps to an available action, produces a dispatch — no check of
any in-flight action gates it. -/
theorem monitor_dispatches_mem (ratingAt : ℕ → Option ℕ) (avail : List String)
    (D : ℕ) (r : ℕ) (a : String) :
    ∀ (fuel start n : ℕ), start ≤ n → n < start + fuel → 10 * n < D →
      ratingAt n = some r → get_action_by_rating r avail = some a →
      (n, a) ∈ (focus_monitoring_loop (fun _ => false) ratingAt avail D fuel start).2 := by
  intro fuel
  induction fuel with
  | zero => intro start n h1 h2; omega
  | succ fuel ih =>
    intro start n h1 h2 hD hr ha
    have hcond : ¬(0 < D ∧ D ≤ 10 * start) := by
      rintro ⟨-, hds⟩
      omega
    simp only [focus_monitoring_loop, Bool.false_eq_true, if_false, hcond]
    rcases Nat.eq_or_lt_of_le h1 with heq | hlt
    · subst heq
      simp only [hr, ha]
      exact List.mem_append_left _ (List.mem_singleton.mpr rfl)
    · exact List.mem_append_right _ (ih (start + 1) n hlt (by omega) hD hr ha)

/-! ## Claim C6 -/

/-- C6: for every session with a positive duration, if no external stop
command ever arrives, the monitoring loop exits on the first tick at
which elapsed wall-clock time reaches the duration (within one 10-second
tick), clearing the session-active flag and stopping the session. -/
theorem focus_c6_time_budget (ratingAt : ℕ → Option ℕ) (avail : List String)
    (D fuel : ℕ) (hD : 0 < D) (hfuel : D + 10 ≤ 10 * fuel) :
    ∃ r : MonitorResult,
      (focus_monitoring_loop (fun _ => false) ratingAt avail D fuel 0).1 = some r ∧
        r.flagAtExit = false ∧ r.serviceStopped = true ∧
        D ≤ r.exitElapsed ∧ r.exitElapsed < D + 10 :=
  monitor_timeout ratingAt avail D hD fuel 0 (by omega) (by omega)

/-- C6 witness: a 25-second budget with no stop command and 4 ticks of
fuel forces the stop. -/
theorem focus_c6_time_budget_witness :
    ∃ r : MonitorResult,
      (focus_monitoring_loop (fun _ => false) (fun _ => none) [] 25 4 0).1 = some r ∧
        r.flagAtExit = false ∧ r.serviceStopped = true ∧
        25 ≤ r.exitElapsed ∧ r.exitElapsed < 25 + 10 :=
  focus_c6_time_budget (fun _ => none) [] 25 4 (by omega) (by omega)

/-! ## Claim C9 -/

/-- C9 counterexample: with a constant rating of 30 and the recording
available, the monitor dispatches an action on every 10-second tick; if
a replay occupies its thread for 15 seconds, two replays are in flight
simultaneously at second 10 — dispatches for the same actuator are
neither queued nor rejected while one is in flight. -/
theorem focus_c9_counterexample :
    2 ≤ inFlightCount
        (focus_monitoring_loop (fun _ => false) (fun _ => some 30) ["30_nod1"] 30 10 0).2
        15 10 := by
  decide

/-- C9 (amended): action dispatches are not serialized per actuator — on
every tick the monitoring loop reaches before its time budget, a rating
that maps to an available action spawns a dispatch unconditionally,
whatever actions are already in flight. -/
theorem focus_c9_unserialized_dispatch (ratingAt : ℕ → Option ℕ)
    (avail : List String) (D r fuel n : ℕ) (a : String)
    (hn : n < fuel) (hD : 10 * n < D)
    (hr : ratingAt n = some r) (ha : get_action_by_rating r avail = some a) :
    (n, a) ∈ (focus_monitoring_loop (fun _ => false) ratingAt avail D fuel 0).2 :=
  monitor_dispatches_mem ratingAt avail D r a fuel 0 n (Nat.zero_le n) (by omega) hD hr ha

/-- C9 witness: the second tick still dispatches "30_nod1" even though
the first tick's replay is in flight. -/
theorem focus_c9_unserialized_dispatch_witness :
    (1, "30_nod1") ∈
      (focus_monitoring_loop (fun _ => false) (fun _ => some 30) ["30_nod1"] 30 10 0).2 :=
  focus_c9_unserialized_dispatch (fun _ => some 30) ["30_nod1"] 30 30 10 1 "30_nod1"
    (by omega) (by omega) rfl (by decide)

/-! ## Claim C7 -/

/-- C7: every invocation of `execute_action` first pauses the session and
finally resumes it exactly once, on every outcome — normal completion, a
missing recording file, or an exception during replay — and never stops
the session: the failed action is abandoned and the session continues. -/
theorem focus_c7_pause_resume_cleanup (o : ReplayOutcome) :
    (execute_action o).head? = some .pauseSession ∧
      (execute_action o).getLast? = some .resumeSession ∧
      (execute_action o).count .resumeSession = 1 ∧
      LampEvent.stopSession ∉ execute_action o := by
  cases o with
  | ok n =>
    refine ⟨rfl, rfl, rfl, ?_⟩
    intro hmem
    simp [execute_action, replayRecordingBody] at hmem
  | fileNotFound => exact ⟨rfl, rfl, rfl, by decide⟩
  | replayError => exact ⟨rfl, rfl, rfl, by decide⟩

/-! ## Homing lemmas -/

/-- One stability-loop iteration increases the counter by at most one. -/
theorem homingStep_counter_le (s : HomingState) (r : Option JointPositions) :
    (homingStep s r).stable_counter ≤ s.stable_counter + 1 := by
  cases r with
  | none => simp [homingStep]
  | some cur =>
    cases hl : s.last_positions with
    | none => simp [homingStep, hl]
    | some lp =>
      by_cases hm : isMovingSample cur lp = true
      · simp [homingStep, hl, hm]
      · simp [homingStep, hl, hm]

/-- If the stability loop declared the movement settled after `n`
iterations, the starting counter plus `n` covers the required run
length. -/
theorem homingLoop_counter_le :
    ∀ (rs : List (Option JointPositions)) (s : HomingState) (n : ℕ),
      homingLoop s rs = some n → STABLE_READS_REQUIRED ≤ s.stable_counter + n := by
  intro rs
  induction rs with
  | nil =>
    intro s n h
    simp only [homingLoop] at h
    split at h
    · omega
    · exact absurd h (by simp)
  | cons r rs ih =>
    intro s n h
    simp only [homingLoop] at h
    split at h
    · simp only [Option.some.injEq] at h
      omega
    · rcases Option.map_eq_some'.mp h with ⟨n1, hn1, rfl⟩
      have := ih (homingStep s r) n1 hn1
      have := homingStep_counter_le s r
      omega

/-- From a fresh state, the loop needs at least six polls to settle: one
baseline read plus five consecutive stable comparisons. -/
theorem homingLoop_min_polls (reads : List (Option JointPositions)) (n : ℕ)
    (h : homingLoop ⟨none, 0⟩ reads = some n) : 6 ≤ n := by
  cases reads with
  | nil =>
    simp [homingLoop, STABLE_READS_REQUIRED] at h
  | cons r rs =>
    simp only [homingLoop, STABLE_READS_REQUIRED] at h
    rw [if_neg (by omega)] at h
    rcases Option.map_eq_some'.mp h with ⟨n1, hn1, rfl⟩
    have hc : (homingStep ⟨none, 0⟩ r).stable_counter = 0 := by
      cases r <;> rfl
    have := homingLoop_counter_le rs (homingStep ⟨none, 0⟩ r) n1 hn1
    rw [hc] at this
    have : STABLE_READS_REQUIRED = 5 := rfl
    omega

/-- Previous-position lookup of the first joint on the concrete sample. -/
theorem jointGetD_lit_base :
    jointGetD [("base", (10 : ℚ)), ("elbow", 5 / 2)] "base" = 10 := rfl

/-- Previous-position lookup of the second joint on the concrete sample. -/
theorem jointGetD_lit_elbow :
    jointGetD [("base", (10 : ℚ)), ("elbow", 5 / 2)] "elbow" = 5 / 2 := rfl

/-- The concrete sample pair `homingExampleRead` against itself is
stable: no joint moved. -/
theorem isMovingSample_example_self :
    isMovingSample homingExampleRead homingExampleRead = false := by
  simp only [isMovingSample, homingExampleRead, List.any_cons, List.any_nil,
    jointGetD_lit_base, jointGetD_lit_elbow]
  norm_num [MOVEMENT_THRESHOLD]

/-- The concrete sample `homingMovedRead` against `homingExampleRead`
counts as movement: the base joint moved a full unit. -/
theorem isMovingSample_example_moved :
    isMovingSample homingMovedRead homingExampleRead = true := by
  simp only [isMovingSample, homingMovedRead, homingExampleRead, List.any_cons, List.any_nil,
    jointGetD_lit_base, jointGetD_lit_elbow]
  norm_num [MOVEMENT_THRESHOLD]

/-- Six identical successful reads from a fresh state settle the loop in
exactly six polls. -/
theorem homingLoop_six_stable :
    homingLoop ⟨none, 0⟩ [some homingExampleRead, some homingExampleRead,
      some homingExampleRead, some homingExampleRead, some homingExampleRead,
      some homingExampleRead] = some 6 := by
  have hstep : ∀ c : ℕ, homingStep ⟨some homingExampleRead, c⟩ (some homingExampleRead) =
      ⟨some homingExampleRead, c + 1⟩ := by
    intro c
    simp [homingStep, isMovingSample_example_self]
  have hfirst : homingStep ⟨none, 0⟩ (some homingExampleRead) =
      ⟨some homingExampleRead, 0⟩ := rfl
  simp [homingLoop, hfirst, hstep, STABLE_READS_REQUIRED]

/-! ## Claim C8 -/

/-- C8: the homing stability loop counts consecutive 100 ms samples in
which every joint's movement since the previous sample is within the 0.5
position-unit threshold; a moving sample or a failed read resets the
counter to zero and polling continues rather than aborting; the loop
declares the movement settled exactly when the counter reaches 5 (so a
fresh loop needs at least six polls: a baseline read plus five stable
comparisons), and homing is reported complete one additional 1-second
grace period after settling. -/
theorem focus_c8_homing_stability :
    (∀ s : HomingState, (homingStep s none).stable_counter = 0) ∧
    (∀ (lp cur : JointPositions) (c : ℕ), isMovingSample cur lp = true →
        homingStep ⟨some lp, c⟩ (some cur) = ⟨some cur, 0⟩) ∧
    (∀ (lp cur : JointPositions) (c : ℕ), isMovingSample cur lp = false →
        homingStep ⟨some lp, c⟩ (some cur) = ⟨some cur, c + 1⟩) ∧
    (∀ (l : Option JointPositions) (c : ℕ) (rs : List (Option JointPositions)),
        c < STABLE_READS_REQUIRED →
        homingLoop ⟨l, c⟩ (none :: rs) = (homingLoop ⟨l, 0⟩ rs).map (· + 1)) ∧
    (∀ (s : HomingState) (rs : List (Option JointPositions)),
        STABLE_READS_REQUIRED ≤ s.stable_counter → homingLoop s rs = some 0) ∧
    (∀ s : HomingState, s.stable_counter < STABLE_READS_REQUIRED →
        homingLoop s [] = none) ∧
    (∀ (reads : List (Option JointPositions)) (n : ℕ),
        homingLoop ⟨none, 0⟩ reads = some n → 6 ≤ n) ∧
    (∀ (reads : List (Option JointPositions)) (n : ℕ),
        homingLoop ⟨none, 0⟩ reads = some n →
        homingReportTime reads = some ((n : ℚ) * HOMING_POLL_INTERVAL + HOMING_GRACE_PERIOD)) ∧
    homingReportTime [some homingExampleRead, some homingExampleRead,
      some homingExampleRead, some homingExampleRead, some homingExampleRead,
      some homingExampleRead] = some (8 / 5) := by
  refine ⟨?_, ?_, ?_, ?_, ?_, ?_, ?_, ?_, ?_⟩
  · intro s; rfl
  · intro lp cur c hm; simp [homingStep, hm]
  · intro lp cur c hm; simp [homingStep, hm]
  · intro l c rs hc
    simp only [homingLoop]
    rw [if_neg (by omega)]
    rfl
  · intro s rs hs
    cases rs with
    | nil => simp only [homingLoop, if_pos hs]
    | cons r rs2 => simp only [homingLoop, if_pos hs]
  · intro s hs
    show (if STABLE_READS_REQUIRED ≤ s.stable_counter then some 0 else none : Option ℕ) = none
    rw [if_neg (by omega)]
  · exact homingLoop_min_polls
  · intro reads n h
    simp [homingReportTime, h]
  · rw [homingReportTime, homingLoop_six_stable]
    norm_num [HOMING_POLL_INTERVAL, HOMING_GRACE_PERIOD]

/-- C8 witness: the theorem's components applied at concrete states — a
failed read resets a counter of 4, a moved sample resets it, a stable
sample advances it to 5, and a counter of 5 is settled immediately. -/
theorem focus_c8_homing_stability_witness :
    (homingStep ⟨some homingExampleRead, 4⟩ none).stable_counter = 0 ∧
      homingStep ⟨some homingExampleRead, 4⟩ (some homingMovedRead) =
        ⟨some homingMovedRead, 0⟩ ∧
      homingStep ⟨some homingExampleRead, 4⟩ (some homingExampleRead) =
        ⟨some homingExampleRead, 5⟩ ∧
      homingLoop ⟨some homingExampleRead, 5⟩ [none] = some 0 :=
  ⟨focus_c8_homing_stability.1 ⟨some homingExampleRead, 4⟩,
   focus_c8_homing_stability.2.1 homingExampleRead homingMovedRead 4
     isMovingSample_example_moved,
   focus_c8_homing_stability.2.2.1 homingExampleRead homingExampleRead 4
     isMovingSample_example_self,
   focus_c8_homing_stability.2.2.2.2.1 ⟨some homingExampleRead, 5⟩ [none]
     (by norm_num [STABLE_READS_REQUIRED])⟩
